import Mathlib

set_option maxRecDepth 8000

/-!
Verification of the PaperPostman paper pipeline.

This file shallowly embeds the pure core of the repository:
the Paper record, the keyword / date filters, the sort and the
deduplication pass (src/paper_filter.py), the weekly accumulator
(src/storage.py) and the markdown renderer (src/readme_generator.py).
Python dicts become a structure whose absent string fields are the
empty string (both are falsy in every guard the code uses) and whose
absent dates are none; the filesystem becomes an explicit map from
file paths to stored paper lists; the ambient clock becomes an
explicit date or timestamp argument.  Character classes of the
regular expression stripping punctuation are modelled over the
ASCII range.
-/

/-- Calendar date, modelling a Python datetime at day granularity
(the code only ever compares dates and formats year, month, day). -/
structure Date where
  year : Nat
  month : Nat
  day : Nat
deriving DecidableEq

/-- Lexicographic strict order on dates, as Python compares datetimes. -/
def Date.lt (a b : Date) : Prop :=
  a.year < b.year ∨ (a.year = b.year ∧
    (a.month < b.month ∨ (a.month = b.month ∧ a.day < b.day)))

/-- Lexicographic non-strict order on dates. -/
def Date.le (a b : Date) : Prop :=
  a.year < b.year ∨ (a.year = b.year ∧
    (a.month < b.month ∨ (a.month = b.month ∧ a.day ≤ b.day)))

instance : DecidableRel Date.lt := fun a b => by
  unfold Date.lt; exact inferInstance

instance : DecidableRel Date.le := fun a b => by
  unfold Date.le; exact inferInstance

/-- Paper record.  String fields that the Python code reads with
dict.get default to the empty string when absent; the code only ever
tests their truthiness, for which absent and empty agree. -/
structure Paper where
  id : String
  title : String
  summary : String
  authors : List String
  affiliations : List String
  categories : List String
  conference : String
  conference_year : String
  track : String
  link : String
  published_date : Option Date
  source : String
deriving DecidableEq

/-- Convenience constructor for papers whose list-valued and
conference fields are absent. -/
def mkPaper (id title summary : String) (pd : Option Date) : Paper :=
  ⟨id, title, summary, [], [], [], "", "", "", "", pd, ""⟩

/-- Python str.lower, character by character (ASCII range). -/
def lowerStr (s : String) : String :=
  String.mk (s.toList.map Char.toLower)

/-- Python str.strip: drop leading and trailing whitespace. -/
def stripStr (s : String) : String :=
  String.mk ((((s.toList.dropWhile Char.isWhitespace).reverse).dropWhile Char.isWhitespace).reverse)

/-- Word character of the regular expression class backslash-w,
over the ASCII range. -/
def isWordChar (c : Char) : Bool :=
  c.isAlphanum || c = '_'

/-- One character of re.sub applied with pattern
[^ word whitespace ] and replacement by a space. -/
def cleanChar (c : Char) : Char :=
  if isWordChar c || c.isWhitespace then c else ' '

/-- Text cleaning step of filter_by_keywords: every character that is
neither a word character nor whitespace becomes a space. -/
def cleanText (s : String) : String :=
  String.mk (s.toList.map cleanChar)

/-- Needle is a leading segment of the haystack. -/
def charsStartWith : List Char → List Char → Bool
  | [], _ => true
  | _ :: _, [] => false
  | a :: as, b :: bs => a = b && charsStartWith as bs

/-- Substring test on character lists, modelling the Python
in-operator on strings. -/
def charsContain : List Char → List Char → Bool
  | [], needle => needle.isEmpty
  | h :: t, needle => charsStartWith needle (h :: t) || charsContain t needle

/-- Substring test on strings: needle occurs inside hay. -/
def strContains (hay needle : String) : Bool :=
  charsContain hay.toList needle.toList

/-- Keyword preparation line of filter_by_keywords: keep the keywords
that are non-empty after stripping, each stripped and lower-cased. -/
def normalizeKeywords (keywords : List String) : List String :=
  (keywords.filter fun kw => stripStr kw ≠ "").map fun kw => lowerStr (stripStr kw)

/-- The cleaned lower-cased match text of one paper: title, a space,
then the summary. -/
def matchText (p : Paper) : String :=
  cleanText (lowerStr (p.title ++ " " ++ p.summary))

/-- Loop body of filter_by_keywords over the prepared keywords. -/
def filterKwLoop (kws : List String) (matchType : String) : List Paper → List Paper
  | [] => []
  | p :: ps =>
    if matchType = "any" then
      if kws.any fun kw => strContains (matchText p) kw then
        p :: filterKwLoop kws matchType ps
      else
        filterKwLoop kws matchType ps
    else if matchType = "all" then
      if kws.all fun kw => strContains (matchText p) kw then
        p :: filterKwLoop kws matchType ps
      else
        filterKwLoop kws matchType ps
    else
      filterKwLoop kws matchType ps

/-- filter_by_keywords from src/paper_filter.py. -/
def filterByKeywords (papers : List Paper) (keywords : List String) (matchType : String) : List Paper :=
  if keywords = [] then papers
  else filterKwLoop (normalizeKeywords keywords) matchType papers

/-- Violation of the lower bound: the bound is present and the date
is strictly below it. -/
def violatesMin (minDate : Option Date) (d : Date) : Bool :=
  match minDate with
  | none => false
  | some m => decide (Date.lt d m)

/-- Violation of the upper bound: the bound is present and the date
is strictly above it. -/
def violatesMax (maxDate : Option Date) (d : Date) : Bool :=
  match maxDate with
  | none => false
  | some m => decide (Date.lt m d)

/-- Loop body of filter_by_date: papers without a date are skipped,
dated papers are kept unless a present bound is violated. -/
def dateLoop (minDate maxDate : Option Date) : List Paper → List Paper
  | [] => []
  | p :: ps =>
    match p.published_date with
    | none => dateLoop minDate maxDate ps
    | some d =>
      if violatesMin minDate d || violatesMax maxDate d then
        dateLoop minDate maxDate ps
      else
        p :: dateLoop minDate maxDate ps

/-- filter_by_date from src/paper_filter.py. -/
def filterByDate (papers : List Paper) (minDate maxDate : Option Date) : List Paper :=
  if minDate = none ∧ maxDate = none then papers
  else dateLoop minDate maxDate papers

/-- Inclusive range test used to state the date-filter contract:
an absent bound imposes no constraint on its side. -/
def dateInRange (minDate maxDate : Option Date) (d : Date) : Bool :=
  (match minDate with
   | none => true
   | some m => decide (Date.le m d)) &&
  (match maxDate with
   | none => true
   | some m => decide (Date.le d m))

/-- Epoch default used by sort_papers for papers without a date. -/
def epochDate : Date := ⟨1970, 1, 1⟩

/-- Sort key of the date branch of sort_papers: the published date,
or the epoch when absent (a present datetime is always truthy). -/
def dateKey (p : Paper) : Date :=
  p.published_date.getD epochDate

/-- Stable sort by key, modelling the Python built-in sorted with a
key function: reverse sorting compares the flipped keys, and ties
keep their original order in both directions. -/
def pySortedBy {K : Type} (le : K → K → Prop) [DecidableRel le] (key : Paper → K) (rev : Bool) (l : List Paper) : List Paper :=
  if rev then List.insertionSort (fun p q => le (key q) (key p)) l
  else List.insertionSort (fun p q => le (key p) (key q)) l

/-- sort_papers from src/paper_filter.py. -/
def sortPapers (papers : List Paper) (sortBy : String) (rev : Bool) : List Paper :=
  if sortBy = "date" then
    pySortedBy Date.le dateKey rev papers
  else if sortBy = "title" then
    pySortedBy (fun a b : String => a ≤ b) (fun p => lowerStr p.title) rev papers
  else if sortBy = "authors" then
    pySortedBy (fun a b : String => a ≤ b) (fun p => lowerStr (String.intercalate ", " p.authors)) rev papers
  else papers

/-- Identity key of deduplicate_papers: the id when truthy, else the
lower-cased stripped title. -/
def dedupKey (p : Paper) : String :=
  if p.id = "" then stripStr (lowerStr p.title) else p.id

/-- Loop body of deduplicate_papers: a paper is kept when its key is
truthy and unseen, and then its key is recorded. -/
def dedupLoop (seen : List String) : List Paper → List Paper
  | [] => []
  | p :: ps =>
    if dedupKey p ≠ "" ∧ dedupKey p ∉ seen then
      p :: dedupLoop (dedupKey p :: seen) ps
    else
      dedupLoop seen ps

/-- deduplicate_papers from src/paper_filter.py. -/
def deduplicatePapers (papers : List Paper) : List Paper :=
  dedupLoop [] papers

/-- Specification rendering of first-occurrence deduplication: walk
the list remembering all previous papers, and keep a paper exactly
when its key is non-empty and no previous paper has the same key. -/
def keepFirst (previous : List Paper) : List Paper → List Paper
  | [] => []
  | p :: ps =>
    if dedupKey p ≠ "" ∧ ∀ q ∈ previous, dedupKey q ≠ dedupKey p then
      p :: keepFirst (previous ++ [p]) ps
    else
      keepFirst (previous ++ [p]) ps

/-- Deduplication stated from the specification wording. -/
def dedupSpec (papers : List Paper) : List Paper :=
  keepFirst [] papers

/-- The on-disk state, abstracted: every file path holds a list of
papers, a missing or unreadable file holding the empty list exactly
as load_papers returns on those cases. -/
def Store : Type := String → List Paper

/-- save_papers from src/storage.py: overwrite one file. -/
def savePapers (store : Store) (papers : List Paper) (filepath : String) : Store :=
  fun q => if q = filepath then papers else store q

/-- load_papers from src/storage.py: read one file, empty when absent. -/
def loadPapers (store : Store) (filepath : String) : List Paper :=
  store filepath

/-- The ids of the stored papers that are truthy. -/
def truthyIds (ps : List Paper) : List String :=
  ps.filterMap fun p => if p.id = "" then none else some p.id

/-- The titles of the stored papers that are truthy. -/
def truthyTitles (ps : List Paper) : List String :=
  ps.filterMap fun p => if p.title = "" then none else some p.title

/-- Loop body of append_papers: a new paper is skipped when its
truthy id or truthy title was already seen, and otherwise appended,
its truthy id and title joining the seen sets. -/
def appendLoop (ids titles : List String) : List Paper → List Paper
  | [] => []
  | p :: ps =>
    if (p.id ≠ "" ∧ p.id ∈ ids) ∨ (p.title ≠ "" ∧ p.title ∈ titles) then
      appendLoop ids titles ps
    else
      p :: appendLoop (if p.id = "" then ids else p.id :: ids)
                      (if p.title = "" then titles else p.title :: titles) ps

/-- Pure core of append_papers from src/storage.py: the stored list
followed by the accepted new papers. -/
def appendPapers (existing newPapers : List Paper) : List Paper :=
  existing ++ appendLoop (truthyIds existing) (truthyTitles existing) newPapers

/-- append_papers from src/storage.py acting on the store: load the
file, merge, save the merged list back to the same file. -/
def appendPapersFile (store : Store) (papers : List Paper) (filepath : String) : Store :=
  savePapers store (appendPapers (loadPapers store filepath) papers) filepath

/-- Specification rendering of the accumulator merge: walk the new
papers remembering everything stored so far, and accept a paper
exactly when no stored paper shares its truthy id and none shares
its truthy title. -/
def appendSpec (stored : List Paper) : List Paper → List Paper
  | [] => []
  | p :: ps =>
    if (p.id ≠ "" ∧ p.id ∈ truthyIds stored) ∨ (p.title ≠ "" ∧ p.title ∈ truthyTitles stored) then
      appendSpec stored ps
    else
      p :: appendSpec (stored ++ [p]) ps

/-- Leap year of the proleptic Gregorian calendar. -/
def isLeapYear (y : Nat) : Bool :=
  y % 4 == 0 && (y % 100 != 0 || y % 400 == 0)

/-- Length of one month. -/
def daysInMonth (y m : Nat) : Nat :=
  if m = 2 then (if isLeapYear y then 29 else 28)
  else if m = 4 ∨ m = 6 ∨ m = 9 ∨ m = 11 then 30
  else 31

/-- Days in year y before the first day of month m. -/
def daysBeforeMonth (y : Nat) : Nat → Nat
  | 0 => 0
  | 1 => 0
  | m + 2 => daysBeforeMonth y (m + 1) + daysInMonth y (m + 1)

/-- Proleptic Gregorian ordinal of a date, day 1 being the first day
of year 1, exactly the toordinal value of a Python datetime. -/
def toOrdinal (d : Date) : Int :=
  let y : Int := d.year
  365 * (y - 1) + (y - 1).fdiv 4 - (y - 1).fdiv 100 + (y - 1).fdiv 400
    + (daysBeforeMonth d.year d.month : Int) + (d.day : Int)

/-- Ordinal of the Monday of ISO week 1 of the given year, following
the datetime module: week 1 is the week holding the first Thursday. -/
def isoweek1Monday (year : Nat) : Int :=
  let firstday := toOrdinal ⟨year, 1, 1⟩
  let firstweekday := (firstday + 6).fmod 7
  let week1monday := firstday - firstweekday
  if firstweekday > 3 then week1monday + 7 else week1monday

/-- ISO year and ISO week number of a date, the first two components
of the isocalendar value of a Python datetime. -/
def isocalendarYearWeek (d : Date) : Int × Int :=
  let today := toOrdinal d
  let week := (today - isoweek1Monday d.year).fdiv 7
  if week < 0 then
    ((d.year : Int) - 1, (today - isoweek1Monday (d.year - 1)).fdiv 7 + 1)
  else if week ≥ 52 ∧ today ≥ isoweek1Monday (d.year + 1) then
    ((d.year : Int) + 1, 1)
  else
    ((d.year : Int), week + 1)

/-- The week number save_weekly_papers and load_weekly_papers read
from the run date: component 1 of isocalendar. -/
def weekNumberOf (d : Date) : Int :=
  (isocalendarYearWeek d).2

/-- Zero-padded two-digit rendering of the week number. -/
def padWeek (w : Int) : String :=
  if 0 ≤ w ∧ w < 10 then "0" ++ toString w else toString w

/-- Bucket file path computed identically by save_weekly_papers and
load_weekly_papers: the weekly directory, then the calendar year of
the date, then week underscore the ISO week number. -/
def weeklyFilePath (weeklyDir : String) (d : Date) : String :=
  weeklyDir ++ "/" ++ toString d.year ++ "/" ++ "week_" ++ padWeek (weekNumberOf d) ++ ".json"

/-- save_weekly_papers from src/storage.py. -/
def saveWeeklyPapers (store : Store) (papers : List Paper) (weeklyDir : String) (d : Date) : Store :=
  appendPapersFile store papers (weeklyFilePath weeklyDir d)

/-- load_weekly_papers from src/storage.py. -/
def loadWeeklyPapers (store : Store) (weeklyDir : String) (d : Date) : List Paper :=
  loadPapers store (weeklyFilePath weeklyDir d)

/-- Four-digit zero-padded year as formatted by strftime. -/
def pad4 (n : Nat) : String :=
  if n < 10 then "000" ++ toString n
  else if n < 100 then "00" ++ toString n
  else if n < 1000 then "0" ++ toString n
  else toString n

/-- Two-digit zero-padded number as formatted by strftime. -/
def pad2 (n : Nat) : String :=
  if n < 10 then "0" ++ toString n else toString n

/-- Date formatted as in strftime with format Y-m-d. -/
def formatDateYmd (d : Date) : String :=
  pad4 d.year ++ "-" ++ pad2 d.month ++ "-" ++ pad2 d.day

/-- Header block of generate_readme, with the injected timestamp. -/
def headerPart (lastUpdated : String) : String :=
  "# PaperPostman\n"
  ++ "> Automatically curated research papers from arXiv and papers.cool\n"
  ++ "\n**Last Updated:** " ++ lastUpdated ++ "\n"
  ++ "---\n"

/-- One numbered entry of the Latest News section. -/
def latestEntry (i : Nat) (p : Paper) : String :=
  "### " ++ toString i ++ ". " ++ p.title ++ "\n\n"
  ++ (if p.authors = [] then ""
      else "**Authors:** "
        ++ (String.intercalate ", " (p.authors.take 5)
            ++ if p.authors.length > 5 then " et al." else "")
        ++ "\n\n")
  ++ (if p.affiliations = [] then ""
      else "**Affiliations:** "
        ++ (String.intercalate ", " (p.affiliations.take 3)
            ++ if p.affiliations.length > 3 then " et al." else "")
        ++ "\n\n")
  ++ (match p.published_date with
      | none => ""
      | some d => "**Published:** " ++ formatDateYmd d ++ "\n\n")
  ++ (if p.conference ≠ "" then
        "**Conference:** " ++ p.conference ++ "\n\n"
        ++ (if p.conference_year ≠ "" then "**Year:** " ++ p.conference_year ++ "\n\n" else "")
        ++ (if p.track ≠ "" then "**Track:** " ++ p.track ++ "\n\n" else "")
      else
        (if p.categories = [] then ""
         else "**Categories:** " ++ String.intercalate ", " p.categories ++ "\n\n"))
  ++ (if p.link ≠ "" then "**[Read Paper](" ++ p.link ++ ")**\n\n" else "")
  ++ (if p.summary ≠ "" then p.summary ++ "\n\n" else "")
  ++ "---\n\n"

/-- All Latest News entries, numbered from i. -/
def latestEntries (i : Nat) : List Paper → String
  | [] => ""
  | p :: ps => latestEntry i p ++ latestEntries (i + 1) ps

/-- Latest News section of generate_readme. -/
def latestNewsSection (papers : List Paper) : String :=
  "\n## Latest News\n\n"
  ++ (if papers = [] then "*No new papers matching your keywords found today.*\n\n"
      else "*" ++ toString papers.length ++ " papers found matching your keywords.*\n\n"
        ++ latestEntries 1 papers)

/-- One entry of the Daily Recommendation section. -/
def dailyEntry (p : Paper) : String :=
  "### 🌟 " ++ p.title ++ "\n\n"
  ++ (if p.authors = [] then ""
      else "**Authors:** "
        ++ (String.intercalate ", " (p.authors.take 3)
            ++ if p.authors.length > 3 then " et al." else "")
        ++ "\n\n")
  ++ (if p.conference ≠ "" then "**Conference:** " ++ p.conference ++ "\n\n" else "")
  ++ (if p.link ≠ "" then "**[Read Paper](" ++ p.link ++ ")**\n\n" else "")
  ++ (if p.summary ≠ "" then p.summary ++ "\n\n" else "")

/-- Daily Recommendation section of generate_readme. -/
def dailyRecommendationSection (papers : List Paper) : String :=
  "\n## Daily Recommendation\n\n"
  ++ (if papers = [] then "*No daily recommendation available.*\n\n"
      else String.join (papers.map dailyEntry) ++ "---\n\n")

/-- Weekly Summary section of generate_readme, with the injected
current day for the week-ending line. -/
def weeklySummarySection (summary today : String) : String :=
  "\n## Weekly Summary\n\n"
  ++ "*Week ending " ++ today ++ "*\n\n"
  ++ "---\n\n"
  ++ summary
  ++ "\n\n---\n\n"

/-- Footer block of generate_readme. -/
def footerPart : String :=
  "\n---\n"
  ++ "\n*This repository is automatically maintained by PaperPostman.*\n"
  ++ "*Archived READMEs can be found in the [archive/](archive/) directory.*\n"

/-- generate_readme from src/readme_generator.py, the ambient clock
made explicit as the lastUpdated and today arguments.  The weekly
section is appended when the summary is truthy and stays truthy
after stripping. -/
def generateReadme (latest daily : List Paper) (weeklySummary lastUpdated today : String) : String :=
  headerPart lastUpdated
  ++ latestNewsSection latest
  ++ dailyRecommendationSection daily
  ++ (if weeklySummary ≠ "" ∧ stripStr weeklySummary ≠ "" then
        weeklySummarySection weeklySummary today
      else "")
  ++ footerPart

/-! Order lemmas for dates. -/

theorem Date.le_total (a b : Date) : Date.le a b ∨ Date.le b a := by
  unfold Date.le; omega

theorem Date.le_trans (a b c : Date) : Date.le a b → Date.le b c → Date.le a c := by
  unfold Date.le; omega

theorem Date.not_lt (a b : Date) : ¬ Date.lt a b ↔ Date.le b a := by
  unfold Date.lt Date.le; omega

/-! Lemmas about the deduplication loop. -/

theorem dedupLoop_length (ps : List Paper) : ∀ seen, (dedupLoop seen ps).length ≤ ps.length := by
  induction ps with
  | nil => intro seen; simp [dedupLoop]
  | cons p ps ih =>
    intro seen
    by_cases h : dedupKey p ≠ "" ∧ dedupKey p ∉ seen
    · simp only [dedupLoop, if_pos h, List.length_cons]
      exact Nat.succ_le_succ (ih _)
    · simp only [dedupLoop, if_neg h, List.length_cons]
      exact Nat.le_succ_of_le (ih _)

theorem dedupLoop_idem (ps : List Paper) : ∀ seen, dedupLoop seen (dedupLoop seen ps) = dedupLoop seen ps := by
  induction ps with
  | nil => intro seen; simp [dedupLoop]
  | cons p ps ih =>
    intro seen
    by_cases h : dedupKey p ≠ "" ∧ dedupKey p ∉ seen
    · simp only [dedupLoop, if_pos h]
      rw [ih]
    · simp only [dedupLoop, if_neg h]
      exact ih seen

theorem dedupLoop_eq_keepFirst (ps : List Paper) :
    ∀ (seen : List String) (previous : List Paper),
      (∀ k, k ∈ seen ↔ (k ≠ "" ∧ ∃ q ∈ previous, dedupKey q = k)) →
      dedupLoop seen ps = keepFirst previous ps := by
  induction ps with
  | nil => intro seen previous _; rfl
  | cons p ps ih =>
    intro seen previous hinv
    by_cases hk : dedupKey p = ""
    · have c1 : ¬ (dedupKey p ≠ "" ∧ dedupKey p ∉ seen) := by simp [hk]
      have c2 : ¬ (dedupKey p ≠ "" ∧ ∀ q ∈ previous, dedupKey q ≠ dedupKey p) := by simp [hk]
      simp only [dedupLoop, keepFirst, if_neg c1, if_neg c2]
      apply ih
      intro k
      constructor
      · intro hks
        obtain ⟨hne, q, hq, hkey⟩ := (hinv k).mp hks
        exact ⟨hne, q, by simp [hq], hkey⟩
      · rintro ⟨hne, q, hq, hkey⟩
        rcases List.mem_append.mp hq with h | h
        · exact (hinv k).mpr ⟨hne, q, h, hkey⟩
        · have hqp : q = p := by simpa using h
          rw [hqp] at hkey
          exact absurd (hkey.symm.trans hk) hne
    · by_cases hmem : dedupKey p ∈ seen
      · obtain ⟨hne, q, hq, hkey⟩ := (hinv _).mp hmem
        have c1 : ¬ (dedupKey p ≠ "" ∧ dedupKey p ∉ seen) := by
          rintro ⟨_, hns⟩; exact hns hmem
        have c2 : ¬ (dedupKey p ≠ "" ∧ ∀ r ∈ previous, dedupKey r ≠ dedupKey p) := by
          rintro ⟨_, hall⟩; exact hall q hq hkey
        simp only [dedupLoop, keepFirst, if_neg c1, if_neg c2]
        apply ih
        intro k
        constructor
        · intro hks
          obtain ⟨hne', r, hr, hkeyr⟩ := (hinv k).mp hks
          exact ⟨hne', r, by simp [hr], hkeyr⟩
        · rintro ⟨hne', r, hr, hkeyr⟩
          rcases List.mem_append.mp hr with h | h
          · exact (hinv k).mpr ⟨hne', r, h, hkeyr⟩
          · have hrp : r = p := by simpa using h
            rw [hrp] at hkeyr
            rw [← hkeyr]
            exact hmem
      · have hall : ∀ q ∈ previous, dedupKey q ≠ dedupKey p := by
          intro q hq hkey
          exact hmem ((hinv _).mpr ⟨hk, q, hq, hkey⟩)
        have c1 : dedupKey p ≠ "" ∧ dedupKey p ∉ seen := ⟨hk, hmem⟩
        have c2 : dedupKey p ≠ "" ∧ ∀ q ∈ previous, dedupKey q ≠ dedupKey p := ⟨hk, hall⟩
        simp only [dedupLoop, keepFirst, if_pos c1, if_pos c2]
        congr 1
        apply ih
        intro k
        constructor
        · intro hks
          rcases List.mem_cons.mp hks with h | h
          · exact ⟨h ▸ hk, p, by simp, h.symm⟩
          · obtain ⟨hne', q, hq, hkeyq⟩ := (hinv k).mp h
            exact ⟨hne', q, by simp [hq], hkeyq⟩
        · rintro ⟨hne', q, hq, hkeyq⟩
          rcases List.mem_append.mp hq with h | h
          · exact List.mem_cons.mpr (Or.inr ((hinv k).mpr ⟨hne', q, h, hkeyq⟩))
          · have hqp : q = p := by simpa using h
            rw [hqp] at hkeyq
            exact List.mem_cons.mpr (Or.inl hkeyq.symm)

/-! Lemmas about the accumulator merge loop. -/

theorem truthyIds_append_one (stored : List Paper) (p : Paper) (s : String) :
    s ∈ truthyIds (stored ++ [p]) ↔ (p.id ≠ "" ∧ s = p.id) ∨ s ∈ truthyIds stored := by
  unfold truthyIds
  rw [List.filterMap_append, List.mem_append]
  constructor
  · rintro (h | h)
    · exact Or.inr h
    · by_cases hp : p.id = ""
      · simp [hp] at h
      · simp [hp] at h
        exact Or.inl ⟨hp, h⟩
  · rintro (⟨hne, rfl⟩ | h)
    · right
      simp [hne]
    · exact Or.inl h

theorem truthyTitles_append_one (stored : List Paper) (p : Paper) (s : String) :
    s ∈ truthyTitles (stored ++ [p]) ↔ (p.title ≠ "" ∧ s = p.title) ∨ s ∈ truthyTitles stored := by
  unfold truthyTitles
  rw [List.filterMap_append, List.mem_append]
  constructor
  · rintro (h | h)
    · exact Or.inr h
    · by_cases hp : p.title = ""
      · simp [hp] at h
      · simp [hp] at h
        exact Or.inl ⟨hp, h⟩
  · rintro (⟨hne, rfl⟩ | h)
    · right
      simp [hne]
    · exact Or.inl h

theorem appendLoop_eq_appendSpec (ps : List Paper) :
    ∀ (ids titles : List String) (stored : List Paper),
      (∀ s, s ∈ ids ↔ s ∈ truthyIds stored) →
      (∀ s, s ∈ titles ↔ s ∈ truthyTitles stored) →
      appendLoop ids titles ps = appendSpec stored ps := by
  induction ps with
  | nil => intro ids titles stored _ _; rfl
  | cons p ps ih =>
    intro ids titles stored hids htitles
    have hcond : ((p.id ≠ "" ∧ p.id ∈ ids) ∨ (p.title ≠ "" ∧ p.title ∈ titles)) ↔
        ((p.id ≠ "" ∧ p.id ∈ truthyIds stored) ∨ (p.title ≠ "" ∧ p.title ∈ truthyTitles stored)) := by
      rw [hids, htitles]
    by_cases h : (p.id ≠ "" ∧ p.id ∈ truthyIds stored) ∨ (p.title ≠ "" ∧ p.title ∈ truthyTitles stored)
    · simp only [appendLoop, appendSpec, if_pos (hcond.mpr h), if_pos h]
      exact ih ids titles stored hids htitles
    · simp only [appendLoop, appendSpec, if_neg (fun hh => h (hcond.mp hh)), if_neg h]
      congr 1
      apply ih
      · intro s
        rw [truthyIds_append_one]
        by_cases hpid : p.id = "" <;> simp [hpid, hids s, List.mem_cons]
      · intro s
        rw [truthyTitles_append_one]
        by_cases hpt : p.title = "" <;> simp [hpt, htitles s, List.mem_cons]

/-! Lemmas about the keyword filter loop. -/

theorem filterKwLoop_any (kws : List String) (ps : List Paper) :
    filterKwLoop kws "any" ps = ps.filter fun p => kws.any fun kw => strContains (matchText p) kw := by
  induction ps with
  | nil => rfl
  | cons p ps ih =>
    by_cases h : (kws.any fun kw => strContains (matchText p) kw) = true
    · simp [filterKwLoop, h, ih]
    · simp [filterKwLoop, h, ih]

theorem filterKwLoop_all (kws : List String) (ps : List Paper) :
    filterKwLoop kws "all" ps = ps.filter fun p => kws.all fun kw => strContains (matchText p) kw := by
  have hne : ("all" : String) ≠ "any" := by decide
  induction ps with
  | nil => rfl
  | cons p ps ih =>
    by_cases h : (kws.all fun kw => strContains (matchText p) kw) = true
    · simp [filterKwLoop, h, ih]
    · simp [filterKwLoop, h, ih]

theorem filterKwLoop_other (kws : List String) (matchType : String) (ps : List Paper)
    (h1 : matchType ≠ "any") (h2 : matchType ≠ "all") :
    filterKwLoop kws matchType ps = [] := by
  induction ps with
  | nil => rfl
  | cons p ps ih =>
    simp only [filterKwLoop, if_neg h1, if_neg h2, ih]

/-! Lemmas about the date filter loop. -/

theorem dateKeep_iff (minDate maxDate : Option Date) (d : Date) :
    (violatesMin minDate d || violatesMax maxDate d) = false ↔ dateInRange minDate maxDate d = true := by
  cases minDate <;> cases maxDate <;>
    simp [violatesMin, violatesMax, dateInRange, Date.not_lt]

theorem dateLoop_eq_filter (minDate maxDate : Option Date) (ps : List Paper) :
    dateLoop minDate maxDate ps
      = ps.filter fun p =>
          match p.published_date with
          | none => false
          | some d => dateInRange minDate maxDate d := by
  induction ps with
  | nil => rfl
  | cons p ps ih =>
    cases hp : p.published_date with
    | none =>
      simp only [dateLoop, hp, ih]
      rw [List.filter_cons_of_neg]
      simp [hp]
    | some d =>
      by_cases h : (violatesMin minDate d || violatesMax maxDate d) = true
      · simp only [dateLoop, hp, if_pos h, ih]
        rw [List.filter_cons_of_neg]
        simp only [hp]
        have := (dateKeep_iff minDate maxDate d)
        rcases hr : dateInRange minDate maxDate d with _ | _
        · simp
        · rw [hr] at this
          rw [this.mpr rfl] at h
          cases h
      · simp only [dateLoop, hp, if_neg h, ih]
        rw [List.filter_cons_of_pos]
        simp only [hp]
        exact (dateKeep_iff minDate maxDate d).mp (by simpa using h)

/-! Claim theorems. -/

/-- C1, counterexample: the run dates 2024-12-30 and 2025-01-02 both
lie in ISO week 1 of ISO year 2025, yet the weekly accumulator keys
its bucket file by the calendar year together with the ISO week
number, so the two runs use two different bucket files, refuting the
claim that they share one. -/
theorem weekly_bucket_iso_year_counterexample :
    (isocalendarYearWeek ⟨2024, 12, 30⟩ = ((2025 : Int), (1 : Int)) ∧
     isocalendarYearWeek ⟨2025, 1, 2⟩ = ((2025 : Int), (1 : Int))) ∧
    weeklyFilePath "weekly" ⟨2024, 12, 30⟩ = "weekly/2024/week_01.json" ∧
    weeklyFilePath "weekly" ⟨2025, 1, 2⟩ = "weekly/2025/week_01.json" ∧
    weeklyFilePath "weekly" ⟨2024, 12, 30⟩ ≠ weeklyFilePath "weekly" ⟨2025, 1, 2⟩ := by
  decide

/-- C1, amended: the weekly accumulator's bucket file is keyed by the
pair of the calendar year of the run date and the ISO week number of
the run date; save and load compute the same path, so two runs with
equal calendar year and equal ISO week number write to and read from
the same bucket file. -/
theorem weekly_bucket_calendar_year_iso_week (store : Store) (papers : List Paper)
    (weeklyDir : String) (d1 d2 : Date)
    (hy : d1.year = d2.year) (hw : weekNumberOf d1 = weekNumberOf d2) :
    weeklyFilePath weeklyDir d1 = weeklyFilePath weeklyDir d2 ∧
    loadWeeklyPapers (saveWeeklyPapers store papers weeklyDir d1) weeklyDir d2
      = appendPapers (loadWeeklyPapers store weeklyDir d1) papers := by
  have hpath : weeklyFilePath weeklyDir d1 = weeklyFilePath weeklyDir d2 := by
    unfold weeklyFilePath
    rw [hy, hw]
  refine ⟨hpath, ?_⟩
  unfold loadWeeklyPapers saveWeeklyPapers appendPapersFile savePapers loadPapers appendPapers
  rw [← hpath]
  simp

/-- C1, witness: the runs dated 2025-01-02 and 2025-01-03 share the
calendar year and the ISO week number, so they use the same bucket
file and a save under the first date is read under the second. -/
theorem weekly_bucket_calendar_year_iso_week_witness :
    weeklyFilePath "weekly" ⟨2025, 1, 2⟩ = weeklyFilePath "weekly" ⟨2025, 1, 3⟩ ∧
    loadWeeklyPapers (saveWeeklyPapers (fun _ => []) [] "weekly" ⟨2025, 1, 2⟩) "weekly" ⟨2025, 1, 3⟩
      = appendPapers (loadWeeklyPapers (fun _ => []) "weekly" ⟨2025, 1, 2⟩) [] :=
  weekly_bucket_calendar_year_iso_week (fun _ => []) [] "weekly" ⟨2025, 1, 2⟩ ⟨2025, 1, 3⟩ rfl (by decide)

/-- C2, counterexample: a paper with an empty id and an empty title
is dropped by deduplicate_papers, refuting the claim that the first
such paper is retained. -/
theorem dedup_empty_key_counterexample :
    deduplicatePapers [mkPaper "" "" "" none] = [] ∧
    (mkPaper "" "" "" none).id = "" ∧ (mkPaper "" "" "" none).title = "" := by
  decide

/-- C2, amended: deduplicate_papers is a single order-preserving pass
that retains exactly the first paper of each non-empty identity key,
the key being the id when truthy and the lower-cased stripped title
otherwise; papers with identical titles but different truthy ids are
both kept, papers with the same id keep only the first, and a paper
with neither a truthy id nor a title that is non-empty after
normalization has the empty key and is dropped entirely. -/
theorem dedup_first_occurrence (papers : List Paper) :
    deduplicatePapers papers = dedupSpec papers := by
  apply dedupLoop_eq_keepFirst
  simp

/-- C3, counterexample: a paper published 1969-01-01 sorts after the
paper without a date under the date sort with reverse, because the
missing date is replaced by the 1970 epoch rather than by the oldest
possible instant; this refutes the claim that a paper lacking a date
sorts as strictly oldest. -/
theorem sort_missing_date_counterexample :
    sortPapers [mkPaper "a" "Old" "" (some ⟨1969, 1, 1⟩), mkPaper "b" "NoDate" "" none] "date" true
      = [mkPaper "b" "NoDate" "" none, mkPaper "a" "Old" "" (some ⟨1969, 1, 1⟩)] ∧
    (mkPaper "b" "NoDate" "" none).published_date = none ∧
    (mkPaper "a" "Old" "" (some ⟨1969, 1, 1⟩)).published_date = some ⟨1969, 1, 1⟩ := by
  decide

/-- C3, amended: the date sort with reverse returns a permutation of
its input that is ordered newest first by the sort key, the key of a
paper being its published date when present and the Unix epoch
1970-01-01 when absent; a paper lacking a date therefore sorts below
exactly the papers dated after the epoch, not below all dated
papers. -/
theorem sort_date_desc_epoch_default (papers : List Paper) :
    (sortPapers papers "date" true).Perm papers ∧
    (sortPapers papers "date" true).Pairwise (fun p q => Date.le (dateKey q) (dateKey p)) ∧
    (∀ p : Paper, p.published_date = none → dateKey p = epochDate) := by
  have hs : sortPapers papers "date" true
      = List.insertionSort (fun p q => Date.le (dateKey q) (dateKey p)) papers := by
    simp [sortPapers, pySortedBy]
  refine ⟨?_, ?_, ?_⟩
  · rw [hs]
    exact List.perm_insertionSort _ _
  · rw [hs]
    haveI : IsTotal Paper (fun p q => Date.le (dateKey q) (dateKey p)) :=
      ⟨fun a b => Date.le_total (dateKey b) (dateKey a)⟩
    haveI : IsTrans Paper (fun p q => Date.le (dateKey q) (dateKey p)) :=
      ⟨fun _ _ _ hab hbc => Date.le_trans _ _ _ hbc hab⟩
    exact List.sorted_insertionSort _ _
  · intro p h
    simp [dateKey, h]

/-- C3, witness: the theorem applied to concrete inputs; in
particular a concrete paper without a date has the epoch as its sort
key. -/
theorem sort_date_desc_epoch_default_witness :
    dateKey (mkPaper "b" "NoDate" "" none) = epochDate ∧
    (sortPapers [mkPaper "b" "NoDate" "" none] "date" true).Perm [mkPaper "b" "NoDate" "" none] :=
  ⟨(sort_date_desc_epoch_default [mkPaper "b" "NoDate" "" none]).2.2 (mkPaper "b" "NoDate" "" none) rfl,
   (sort_date_desc_epoch_default [mkPaper "b" "NoDate" "" none]).1⟩

/-- C4, counterexample: the stored paper has title foo and the new
paper has title FOO followed by a space; their deduplication identity
keys coincide after normalization, yet append_papers appends the new
paper instead of treating it as a duplicate, because the accumulator
compares raw titles. -/
theorem append_normalized_title_counterexample :
    appendPapers [mkPaper "" "foo" "" none] [mkPaper "" "FOO " "" none]
      = [mkPaper "" "foo" "" none, mkPaper "" "FOO " "" none] ∧
    dedupKey (mkPaper "" "FOO " "" none) = dedupKey (mkPaper "" "foo" "" none) := by
  decide

/-- C4, amended: the two duplicate decisions use different
identities; deduplicate_papers keys on the id when truthy and else
on the lower-cased stripped title, while append_papers compares raw
ids and raw titles without normalization, so the accumulator appends
any new paper whose raw title differs from every stored raw title,
even one differing only in letter case or surrounding whitespace. -/
theorem append_uses_raw_title_identity (existing : List Paper) (q : Paper)
    (hid : q.id = "") (_ht : q.title ≠ "")
    (hfresh : ∀ p ∈ existing, p.title ≠ q.title) :
    appendPapers existing [q] = existing ++ [q] := by
  have hcond : ¬ ((q.id ≠ "" ∧ q.id ∈ truthyIds existing) ∨
      (q.title ≠ "" ∧ q.title ∈ truthyTitles existing)) := by
    rintro (⟨h, _⟩ | ⟨_, hmem⟩)
    · exact h hid
    · obtain ⟨p, hp, hsome⟩ := List.mem_filterMap.mp hmem
      by_cases hpt : p.title = ""
      · simp [hpt] at hsome
      · simp [hpt] at hsome
        exact hfresh p hp hsome
  unfold appendPapers
  simp only [appendLoop, if_neg hcond]

/-- C4, witness: the amended theorem applied to a stored paper titled
foo and a new paper titled FOO with a trailing space. -/
theorem append_uses_raw_title_identity_witness :
    appendPapers [mkPaper "" "foo" "" none] [mkPaper "" "FOO " "" none]
      = [mkPaper "" "foo" "" none] ++ [mkPaper "" "FOO " "" none] :=
  append_uses_raw_title_identity [mkPaper "" "foo" "" none] (mkPaper "" "FOO " "" none)
    rfl (by decide) (by decide)

/-- C5, counterexample: first, with an empty bucket, of two new
papers sharing the id a only the first is kept, although neither id
nor title occurs among the already-stored papers, so acceptance is
not decided against the pre-existing list alone; second, two new
papers with neither id nor title are both appended, so the read-back
does not contain each paper exactly once. -/
theorem append_already_stored_counterexample :
    (appendPapers [] [mkPaper "a" "t1" "" none, mkPaper "a" "t2" "" none]
       = [mkPaper "a" "t1" "" none] ∧
     mkPaper "a" "t2" "" none ≠ mkPaper "a" "t1" "" none) ∧
    appendPapers [] [mkPaper "" "" "" none, mkPaper "" "" "" none]
      = [mkPaper "" "" "" none, mkPaper "" "" "" none] := by
  decide

/-- C5, amended: the accumulator's write path appends a new paper
exactly when neither its truthy id nor its truthy title occurs among
the papers stored so far, where stored so far spans the pre-existing
bucket content and the new papers accepted earlier in the same call;
papers with neither a truthy id nor a truthy title are always
appended; the pre-existing papers keep their prior order as a
prefix, the accepted papers follow in input order, and a subsequent
read of the same bucket returns exactly this list. -/
theorem append_write_read_round_trip (store : Store) (filepath : String) (newPapers : List Paper) :
    loadPapers (appendPapersFile store newPapers filepath) filepath
      = loadPapers store filepath ++ appendSpec (loadPapers store filepath) newPapers := by
  unfold appendPapersFile savePapers appendPapers loadPapers
  beta_reduce
  rw [if_pos rfl]
  congr 1
  exact appendLoop_eq_appendSpec newPapers _ _ (store filepath) (fun _ => Iff.rfl) (fun _ => Iff.rfl)

/-- C6, counterexample: with keyword list AI the paper titled ai is
kept, although the case-folded cleaned match text does not contain
the keyword AI as a substring; the filter matches the normalized
keyword, not the keyword as given, refuting the claim as stated. -/
theorem keyword_filter_raw_keyword_counterexample :
    filterByKeywords [mkPaper "x" "ai" "" none] ["AI"] "any" = [mkPaper "x" "ai" "" none] ∧
    strContains (matchText (mkPaper "x" "ai" "" none)) "AI" = false := by
  decide

/-- C6, amended: filter_by_keywords first normalizes the keyword
list, stripping and lower-casing each keyword and discarding the
ones empty after stripping; with a non-empty keyword list it returns
the subsequence of papers whose case-folded cleaned match text
contains at least one normalized keyword as a substring under
match_type any, or every normalized keyword under match_type all;
with an empty keyword list it returns the input unchanged. -/
theorem keyword_filter_normalized (papers : List Paper) (keywords : List String) (matchType : String) :
    (filterByKeywords papers keywords "any"
       = if keywords = [] then papers
         else papers.filter fun p =>
           (normalizeKeywords keywords).any fun kw => strContains (matchText p) kw) ∧
    (filterByKeywords papers keywords "all"
       = if keywords = [] then papers
         else papers.filter fun p =>
           (normalizeKeywords keywords).all fun kw => strContains (matchText p) kw) ∧
    filterByKeywords papers [] matchType = papers := by
  refine ⟨?_, ?_, ?_⟩
  · by_cases h : keywords = []
    · simp [filterByKeywords, h]
    · simp only [filterByKeywords, if_neg h]
      exact filterKwLoop_any _ _
  · by_cases h : keywords = []
    · simp [filterByKeywords, h]
    · simp only [filterByKeywords, if_neg h]
      exact filterKwLoop_all _ _
  · simp [filterByKeywords]

/-- C7: deduplicate_papers is idempotent and never lengthens its
input list. -/
theorem dedup_idempotent_and_nonexpanding (papers : List Paper) :
    deduplicatePapers (deduplicatePapers papers) = deduplicatePapers papers ∧
    (deduplicatePapers papers).length ≤ papers.length :=
  ⟨dedupLoop_idem papers [], dedupLoop_length papers []⟩

/-- C8: filter_by_date returns its input unchanged when both bounds
are absent, and otherwise keeps exactly the papers whose present
published date lies in the inclusive range, a missing bound imposing
no constraint on its side and papers without a published date being
dropped. -/
theorem date_filter_inclusive_range (papers : List Paper) (minDate maxDate : Option Date) :
    filterByDate papers minDate maxDate
      = if minDate = none ∧ maxDate = none then papers
        else papers.filter fun p =>
          match p.published_date with
          | none => false
          | some d => dateInRange minDate maxDate d := by
  unfold filterByDate
  by_cases h : minDate = none ∧ maxDate = none
  · rw [if_pos h, if_pos h]
  · rw [if_neg h, if_neg h]
    exact dateLoop_eq_filter minDate maxDate papers

/-- C9: generate_readme is the concatenation, in fixed order, of the
header, the Latest News section, the Daily Recommendation section,
the Weekly Summary section exactly when the summary is non-empty
after stripping, and the footer; rendered with no latest papers, no
daily recommendations and an empty summary, the document contains
the two literal placeholder sentences and no Weekly Summary heading
at all. -/
theorem readme_fixed_section_order (latest daily : List Paper) (weeklySummary lastUpdated today : String) :
    (generateReadme latest daily weeklySummary lastUpdated today
       = headerPart lastUpdated ++ latestNewsSection latest ++ dailyRecommendationSection daily
         ++ (if stripStr weeklySummary = "" then "" else weeklySummarySection weeklySummary today)
         ++ footerPart) ∧
    strContains (generateReadme [] [] "" "2025-01-02 00:00:00 UTC" "2025-01-02")
      "*No new papers matching your keywords found today.*" = true ∧
    strContains (generateReadme [] [] "" "2025-01-02 00:00:00 UTC" "2025-01-02")
      "*No daily recommendation available.*" = true ∧
    strContains (generateReadme [] [] "" "2025-01-02 00:00:00 UTC" "2025-01-02")
      "## Weekly Summary" = false := by
  refine ⟨?_, by decide, by decide, by decide⟩
  unfold generateReadme
  by_cases h : stripStr weeklySummary = ""
  · have h2 : ¬ (weeklySummary ≠ "" ∧ stripStr weeklySummary ≠ "") := fun hh => hh.2 h
    rw [if_neg h2, if_pos h]
  · have hne : weeklySummary ≠ "" := by
      intro hs
      rw [hs] at h
      exact h rfl
    rw [if_pos ⟨hne, h⟩, if_neg h]

/-- C10: with a non-empty keyword list and a match type that is
neither any nor all, filter_by_keywords returns the empty list: no
paper is appended because neither match branch is taken. -/
theorem keyword_filter_unknown_match_type (papers : List Paper) (keywords : List String)
    (matchType : String) (h0 : keywords ≠ []) (h1 : matchType ≠ "any") (h2 : matchType ≠ "all") :
    filterByKeywords papers keywords matchType = [] := by
  unfold filterByKeywords
  rw [if_neg h0]
  exact filterKwLoop_other _ _ _ h1 h2

/-- C10, witness: a concrete paper list with keyword x and the
unrecognized match type none yields the empty list. -/
theorem keyword_filter_unknown_match_type_witness :
    filterByKeywords [mkPaper "x" "ai" "" none] ["x"] "none" = [] :=
  keyword_filter_unknown_match_type [mkPaper "x" "ai" "" none] ["x"] "none"
    (by decide) (by decide) (by decide)
